import Mathlib

/-!
Shallow embedding of the facility-location-with-patterns notebook
(`Facility_Location_Pattern.ipynb`).

The notebook declares a fixed instance (facility range `I`, customer range
`J`, demands `b`, opening costs `f`, capacities `C`, connection-cost
dictionary `c`), enumerates the power set `P` of `J` via
`itertools.combinations`, precomputes a cost for every (facility, pattern)
pair, and builds a binary program with three constraint families:
capacity exclusion (`l[i,p] == 0` whenever the pattern's demand exceeds the
facility's capacity), one pattern per facility, and exact coverage of every
customer.  Everything below is translated from that source.
-/

namespace FacLoc

/-- `itertools.combinations(xs, r)`: all `r`-element subsequences of `xs`,
in the order `itertools` emits them (lexicographic by position). -/
def combinations {α : Type} : Nat → List α → List (List α)
  | 0, _ => [[]]
  | _ + 1, [] => []
  | r + 1, x :: xs => (combinations r xs).map (fun t => x :: t) ++ combinations (r + 1) xs

/-- `P = tuple(chain.from_iterable(combinations(J, r) for r in range(len(J)+1)))`. -/
def patterns (J : List Nat) : List (List Nat) :=
  ((List.range (J.length + 1)).map (fun r => combinations r J)).flatten

/-- The input data of the notebook: ranges `I` and `J`, demand tuple `b`,
opening-cost tuple `f`, capacity tuple `C`, and the connection-cost
dictionary `c` (modelled as an association list with distinct keys). -/
structure FLData where
  I : List Nat
  J : List Nat
  b : List Nat
  f : List Nat
  C : List Nat
  c : List ((Nat × Nat) × Nat)

/-- The three `assert` statements of the data cell:
`len(J) == len(b)`, `len(I) == len(f) == len(C)`, `len(c) == len(I)*len(J)`. -/
def validate (d : FLData) : Bool :=
  (d.J.length == d.b.length) &&
    ((d.I.length == d.f.length) && (d.f.length == d.C.length)) &&
    (d.c.length == d.I.length * d.J.length)

/-- `quicksum(c[i, j] for j in p)`: sums the connection costs of the
customers of a pattern, failing (like a Python `KeyError`) when the
dictionary lacks an entry. -/
def connSum (c : List ((Nat × Nat) × Nat)) (i : Nat) : List Nat → Option Nat
  | [] => some 0
  | j :: js =>
    match c.lookup (i, j), connSum c i js with
    | some v, some s => some (v + s)
    | _, _ => none

/-- `cost[i, p]`: `0` when `p` is empty, otherwise `f[i] + quicksum(c[i, j]
for j in p)`; `none` models the run-time lookup error on missing data. -/
def patternCost (d : FLData) (i : Nat) (p : List Nat) : Option Nat :=
  if p.length = 0 then some 0
  else
    match d.f.get? i, connSum d.c i p with
    | some fi, some s => some (fi + s)
    | _, _ => none

/-- `sum(b[j] for j in list(p))`: total demand of a pattern. -/
def demandSum (b : List Nat) (p : List Nat) : Nat :=
  (p.map (fun j => b.getD j 0)).sum

/-- A linear equality constraint of the model: the sum of the binary
variables indexed by `vars` (all coefficients in the notebook are 1)
must equal `rhs`. -/
structure Constr where
  vars : List (Nat × List Nat)
  rhs : Nat
deriving DecidableEq, Repr

/-- The variable keys, in declaration order: `for i in I: for p in P`. -/
def allPairs (d : FLData) : List (Nat × List Nat) :=
  (d.I.map (fun i => (patterns d.J).map (fun p => (i, p)))).flatten

/-- Objective coefficient of `l[i,p]` (`cost[i,p]`; total lookups succeed on
validated complete data). -/
def objCoeff (d : FLData) (i : Nat) (p : List Nat) : Nat :=
  (patternCost d i p).getD 0

/-- Capacity-exclusion constraints: `l[i,p] == 0` whenever
`sum(b[j] for j in p) > C[i]`, in loop order `for i in I: for p in P`. -/
def exclusionConstrs (d : FLData) : List Constr :=
  (d.I.map (fun i =>
    ((patterns d.J).filter
      (fun p => decide (demandSum d.b p > d.C.getD i 0))).map
        (fun p => ⟨[(i, p)], 0⟩))).flatten

/-- One-pattern-per-facility constraints:
`quicksum(l[i, p] for p in P) == 1` for every `i in I`. -/
def onePatConstrs (d : FLData) : List Constr :=
  d.I.map (fun i => ⟨(patterns d.J).map (fun p => (i, p)), 1⟩)

/-- Customer-coverage constraints:
`quicksum(l[i, p] for i in I for p in P if j in list(p)) == 1` for `j in J`. -/
def coverConstrs (d : FLData) : List Constr :=
  d.J.map (fun j =>
    ⟨(d.I.map (fun i =>
      ((patterns d.J).filter (fun p => decide (j ∈ p))).map
        (fun p => (i, p)))).flatten, 1⟩)

/-- All constraints of the model, in the order the notebook adds them. -/
def constrs (d : FLData) : List Constr :=
  exclusionConstrs d ++ onePatConstrs d ++ coverConstrs d

/-- Value of a constraint's left-hand side under a 0/1 assignment `l`. -/
def lhsSum (l : Nat × List Nat → Bool) (ks : List (Nat × List Nat)) : Nat :=
  (ks.map (fun k => (l k).toNat)).sum

/-- An assignment satisfies one equality constraint. -/
def Satisfies (l : Nat × List Nat → Bool) (con : Constr) : Prop :=
  lhsSum l con.vars = con.rhs

instance (l : Nat × List Nat → Bool) (con : Constr) : Decidable (Satisfies l con) :=
  inferInstanceAs (Decidable (_ = _))

/-- An assignment satisfies every constraint of the built model. -/
def Feasible (d : FLData) (l : Nat × List Nat → Bool) : Prop :=
  ∀ con ∈ constrs d, Satisfies l con

instance (d : FLData) (l : Nat × List Nat → Bool) : Decidable (Feasible d l) :=
  inferInstanceAs (Decidable (∀ con ∈ constrs d, Satisfies l con))

/-- The objective `quicksum(cost[i, p] * l[i, p] for i in I for p in P)`. -/
def objective (d : FLData) (l : Nat × List Nat → Bool) : Nat :=
  ((allPairs d).map (fun k => objCoeff d k.1 k.2 * (l k).toNat)).sum

/-- The cost table computed in the notebook's cost cell; `none` as soon as
one connection-cost lookup fails. -/
def costTable (d : FLData) : Option (List ((Nat × List Nat) × Nat)) :=
  (allPairs d).mapM (fun k => (patternCost d k.1 k.2).map (fun v => (k, v)))

/-- The data handed to the solver: variable keys, objective coefficients,
constraints. -/
def buildModel (d : FLData) :
    List (Nat × List Nat) × List ((Nat × List Nat) × Nat) × List Constr :=
  (allPairs d, (costTable d).getD [], constrs d)

/-- The notebook's top-to-bottom run: the three asserts fire first
(`AssertionError`), then the cost cell may fail on a missing dictionary
entry (`KeyError`), and only then is the model available. -/
def run (d : FLData) :
    Except String (List (Nat × List Nat) × List ((Nat × List Nat) × Nat) × List Constr) :=
  if validate d then
    match costTable d with
    | some tbl => .ok (allPairs d, tbl, constrs d)
    | none => .error "KeyError"
  else .error "AssertionError"

/-- `I = range(3)`. -/
def I : List Nat := List.range 3

/-- `J = range(5)`. -/
def J : List Nat := List.range 5

/-- `b = (5, 7, 10, 14, 11)`. -/
def b : List Nat := [5, 7, 10, 14, 11]

/-- `f = (5, 11, 9)`. -/
def f : List Nat := [5, 11, 9]

/-- `C = (10, 20, 20)`. -/
def C : List Nat := [10, 20, 20]

/-- The connection-cost dictionary `c` of the notebook. -/
def c : List ((Nat × Nat) × Nat) :=
  [((0, 0), 2), ((0, 1), 7), ((0, 2), 7), ((0, 3), 8), ((0, 4), 8),
   ((1, 0), 7), ((1, 1), 2), ((1, 2), 4), ((1, 3), 7), ((1, 4), 2),
   ((2, 0), 2), ((2, 1), 2), ((2, 2), 2), ((2, 3), 4), ((2, 4), 8)]

/-- The notebook's fixed example instance. -/
def ex : FLData := ⟨I, J, b, f, C, c⟩

/-- `P`: the pattern tuple of the example instance. -/
def P : List (List Nat) := patterns J

/-- The optimal assignment the solver reports: facility 0 serves customer 2,
facility 1 serves customers 1 and 4, facility 2 serves customers 0 and 3. -/
def lopt : Nat × List Nat → Bool :=
  fun k => decide (k ∈ [((0 : Nat), ([2] : List Nat)), (1, [1, 4]), (2, [0, 3])])

/-- Sum of `l[i,p]` over all facilities `i` and patterns `p` containing the
customer `j`. -/
def coverSum (d : FLData) (l : Nat × List Nat → Bool) (j : Nat) : Nat :=
  lhsSum l ((allPairs d).filter (fun k => decide (j ∈ k.2)))

/-- Sum of `l[i,p]` over all patterns `p`, for the facility `i`. -/
def facilitySum (d : FLData) (l : Nat × List Nat → Bool) (i : Nat) : Nat :=
  lhsSum l ((patterns d.J).map (fun p => (i, p)))

/-- The connection-cost table of the example read directly as a function,
used to state the specification's cost formula. -/
def connOf : Nat → Nat → Nat
  | 0, 0 => 2
  | 0, 1 => 7
  | 0, 2 => 7
  | 0, 3 => 8
  | 0, 4 => 8
  | 1, 0 => 7
  | 1, 1 => 2
  | 1, 2 => 4
  | 1, 3 => 7
  | 1, 4 => 2
  | 2, 0 => 2
  | 2, 1 => 2
  | 2, 2 => 2
  | 2, 3 => 4
  | 2, 4 => 8
  | _, _ => 0

/-- The connection-cost mapping lacks an entry for some pair in `I × J`. -/
def MissingEntry (d : FLData) : Prop :=
  ∃ i ∈ d.I, ∃ j ∈ d.J, d.c.lookup (i, j) = none

instance (d : FLData) : Decidable (MissingEntry d) :=
  inferInstanceAs (Decidable (∃ i ∈ d.I, ∃ j ∈ d.J, d.c.lookup (i, j) = none))

/-- The example dictionary with the `(0, 0)` entry replaced by a stray
`(7, 7)` key: still 15 entries, but no value for the pair `(0, 0)`. -/
def cBad : List ((Nat × Nat) × Nat) :=
  [((7, 7), 2), ((0, 1), 7), ((0, 2), 7), ((0, 3), 8), ((0, 4), 8),
   ((1, 0), 7), ((1, 1), 2), ((1, 2), 4), ((1, 3), 7), ((1, 4), 2),
   ((2, 0), 2), ((2, 1), 2), ((2, 2), 2), ((2, 3), 4), ((2, 4), 8)]

/-- The example instance with the incomplete-but-right-sized dictionary. -/
def exBad : FLData := ⟨I, J, b, f, C, cBad⟩

/-- The block of size-`r` patterns has `|xs| choose r` entries. -/
theorem combinations_length {α : Type} (xs : List α) :
    ∀ r : Nat, (combinations r xs).length = xs.length.choose r := by
  induction xs with
  | nil => intro r; cases r <;> simp [combinations]
  | cons x xs ih =>
    intro r
    cases r with
    | zero => simp [combinations]
    | succ r =>
      simp [combinations, ih r, ih (r + 1), Nat.choose_succ_succ]

/-- Every member of the size-`r` block really has `r` elements. -/
theorem length_of_mem_combinations {α : Type} (xs : List α) :
    ∀ (r : Nat) (p : List α), p ∈ combinations r xs → p.length = r := by
  induction xs with
  | nil =>
    intro r p hp
    cases r with
    | zero => simp [combinations] at hp; simp [hp]
    | succ r => simp [combinations] at hp
  | cons x xs ih =>
    intro r p hp
    cases r with
    | zero => simp [combinations] at hp; simp [hp]
    | succ r =>
      simp [combinations] at hp
      rcases hp with ⟨t, ht, rfl⟩ | hp
      · simp [ih r t ht]
      · exact ih (r + 1) p hp

/-- List-level form of a `Finset.range` sum. -/
theorem sum_map_range (g : Nat → Nat) :
    ∀ m : Nat, ((List.range m).map g).sum = ∑ i ∈ Finset.range m, g i := by
  intro m
  induction m with
  | zero => simp
  | succ m ih => rw [List.range_succ, Finset.sum_range_succ]; simp [ih]

/-- The enumerator yields exactly `2 ^ |J|` patterns. -/
theorem patterns_length (Js : List Nat) : (patterns Js).length = 2 ^ Js.length := by
  unfold patterns
  rw [List.length_flatten, List.map_map]
  have h : List.map (List.length ∘ fun r => combinations r Js)
      (List.range (Js.length + 1)) =
      (List.range (Js.length + 1)).map (fun r => Js.length.choose r) := by
    apply List.map_congr_left
    intro r _
    exact combinations_length Js r
  rw [h, sum_map_range, Nat.sum_range_choose]

/-- The first pattern the enumerator yields is the empty pattern. -/
theorem patterns_head (Js : List Nat) : (patterns Js).head? = some [] := by
  unfold patterns
  rw [List.range_succ_eq_map]
  simp [combinations]

/-- Summing 0/1 indicators over a list counts the `true` positions. -/
theorem sum_map_toNat {α : Type} (t : α → Bool) (xs : List α) :
    (xs.map fun x => (t x).toNat).sum = xs.countP t := by
  induction xs with
  | nil => simp
  | cons x xs ih =>
    rw [List.map_cons, List.sum_cons, List.countP_cons, ih]
    cases hx : t x <;> simp [hx, Nat.add_comm]

theorem lhsSum_eq_countP (l : Nat × List Nat → Bool) (ks : List (Nat × List Nat)) :
    lhsSum l ks = ks.countP l :=
  sum_map_toNat l ks

theorem lhsSum_append (l : Nat × List Nat → Bool) (ks₁ ks₂ : List (Nat × List Nat)) :
    lhsSum l (ks₁ ++ ks₂) = lhsSum l ks₁ + lhsSum l ks₂ := by
  simp [lhsSum]

theorem lhsSum_map (l : Nat × List Nat → Bool) (g : List Nat → Nat × List Nat)
    (xs : List (List Nat)) :
    lhsSum l (xs.map g) = xs.countP (fun x => l (g x)) := by
  rw [lhsSum_eq_countP, List.countP_map]
  rfl

/-- A constraint LHS equal to 1 pins down a unique `true` variable. -/
theorem filter_eq_singleton_of_countP_one {α : Type} (t : α → Bool) (xs : List α)
    (h : xs.countP t = 1) : ∃ a, xs.filter t = [a] := by
  rw [List.countP_eq_length_filter] at h
  exact List.length_eq_one.mp h

theorem mem_of_filter_eq_singleton {α : Type} {t : α → Bool} {xs : List α} {a : α}
    (h : xs.filter t = [a]) : a ∈ xs ∧ t a = true := by
  have ha : a ∈ xs.filter t := by rw [h]; exact List.mem_singleton_self a
  exact List.mem_filter.mp ha

/-- Counting the unique `true` position inside a filtered sublist. -/
theorem countP_filter_of_filter_eq_singleton {α : Type} {t : α → Bool} {xs : List α}
    {a : α} (h : xs.filter t = [a]) (q : α → Bool) :
    (xs.filter q).countP t = (q a).toNat := by
  have h1 : List.filter (fun x => q x && t x) xs = List.filter q [a] := by
    rw [← List.filter_filter, h]
  have h2 : List.filter (fun x => t x && q x) xs =
      List.filter (fun x => q x && t x) xs :=
    List.filter_congr (fun x _ => Bool.and_comm _ _)
  rw [List.countP_eq_length_filter, List.filter_filter, h2, h1]
  cases hq : q a <;> simp [hq]

theorem sum_mul_zero_of_filter_nil {α : Type} (w : α → Nat) {t : α → Bool}
    {xs : List α} (h : xs.filter t = []) :
    (xs.map fun x => w x * (t x).toNat).sum = 0 := by
  apply List.sum_eq_zero
  intro v hv
  rcases List.mem_map.mp hv with ⟨x, hx, rfl⟩
  have hfx : ¬t x = true := List.filter_eq_nil_iff.mp h x hx
  simp [Bool.not_eq_true] at hfx
  simp [hfx]

/-- A weighted indicator sum collapses to the weight of the unique `true`
position. -/
theorem sum_mul_of_filter_eq_singleton {α : Type} (w : α → Nat) {t : α → Bool}
    {xs : List α} {a : α} (h : xs.filter t = [a]) :
    (xs.map fun x => w x * (t x).toNat).sum = w a := by
  induction xs generalizing a with
  | nil => simp at h
  | cons x xs ih =>
    cases hx : t x with
    | true =>
      rw [List.filter_cons_of_pos hx] at h
      simp only [List.cons.injEq] at h
      obtain ⟨rfl, hnil⟩ := h
      rw [List.map_cons, List.sum_cons, hx, sum_mul_zero_of_filter_nil w hnil]
      simp
    | false =>
      rw [List.filter_cons_of_neg (by simp [hx])] at h
      rw [List.map_cons, List.sum_cons, hx]
      simp [ih h]

/-- The one-pattern-per-facility constraints are part of the built model. -/
theorem onePat_mem : ∀ i ∈ I, (⟨P.map (fun p => (i, p)), 1⟩ : Constr) ∈ constrs ex := by
  decide

/-- Every over-capacity (facility, pattern) pair has its fixing constraint
in the built model. -/
theorem excl_mem : ∀ i ∈ I, ∀ p ∈ P, C.getD i 0 < demandSum b p →
    (⟨[(i, p)], 0⟩ : Constr) ∈ constrs ex := by
  decide

/-- The customer-coverage constraints are part of the built model. -/
theorem cover_mem : ∀ j ∈ J,
    (⟨(I.map (fun i => (P.filter (fun p => decide (j ∈ p))).map
      (fun p => (i, p)))).flatten, 1⟩ : Constr) ∈ constrs ex := by
  decide

/-- Exhaustive check over all `32³` pattern triples: any capacity-respecting
exact cover of the five customers costs at least 42. -/
theorem triple_lower_bound : ∀ p₀ ∈ P, demandSum b p₀ ≤ C.getD 0 0 →
    ∀ p₁ ∈ P, demandSum b p₁ ≤ C.getD 1 0 →
    ∀ p₂ ∈ P, demandSum b p₂ ≤ C.getD 2 0 →
    (∀ j ∈ J, (decide (j ∈ p₀)).toNat + (decide (j ∈ p₁)).toNat +
      (decide (j ∈ p₂)).toNat = 1) →
    42 ≤ objCoeff ex 0 p₀ + objCoeff ex 1 p₁ + objCoeff ex 2 p₂ := by
  decide

/-- In a feasible assignment each facility has a unique chosen pattern. -/
theorem chosen_of_feasible {l : Nat × List Nat → Bool} (hF : Feasible ex l) :
    ∀ i ∈ I, ∃ p, P.filter (fun q => l (i, q)) = [p] := by
  intro i hi
  have hs := hF _ (onePat_mem i hi)
  unfold Satisfies at hs
  rw [lhsSum_map] at hs
  exact filter_eq_singleton_of_countP_one _ _ hs

/-- The variable keys whose pattern contains `j`, read off the key list,
coincide with the variable list of `j`'s coverage constraint. -/
theorem filter_allPairs (d : FLData) (j : Nat) :
    (allPairs d).filter (fun k => decide (j ∈ k.2)) =
    (d.I.map (fun i => ((patterns d.J).filter (fun p => decide (j ∈ p))).map
      (fun p => (i, p)))).flatten := by
  unfold allPairs
  rw [List.filter_flatten, List.map_map]
  congr 1
  apply List.map_congr_left
  intro i _
  rw [Function.comp_apply, List.filter_map]
  rfl

set_option maxRecDepth 10000 in
/-- C1.  For the fixed example instance, the minimum of the objective over
all binary assignments satisfying the capacity-exclusion,
one-pattern-per-facility and customer-coverage constraints equals 42. -/
theorem optimal_value_42 :
    (∃ l, Feasible ex l ∧ objective ex l = 42) ∧
    ∀ l, Feasible ex l → 42 ≤ objective ex l := by
  constructor
  · exact ⟨lopt, by decide, by decide⟩
  · intro l hF
    obtain ⟨p₀, h₀⟩ := chosen_of_feasible hF 0 (by decide)
    obtain ⟨p₁, h₁⟩ := chosen_of_feasible hF 1 (by decide)
    obtain ⟨p₂, h₂⟩ := chosen_of_feasible hF 2 (by decide)
    have m₀ := mem_of_filter_eq_singleton h₀
    have m₁ := mem_of_filter_eq_singleton h₁
    have m₂ := mem_of_filter_eq_singleton h₂
    have cap : ∀ i ∈ I, ∀ p ∈ P, l (i, p) = true → demandSum b p ≤ C.getD i 0 := by
      intro i hi p hp hl
      by_contra hgt
      push_neg at hgt
      have hc := hF _ (excl_mem i hi p hp hgt)
      unfold Satisfies lhsSum at hc
      simp [hl] at hc
    have cov : ∀ j ∈ J,
        (decide (j ∈ p₀)).toNat + (decide (j ∈ p₁)).toNat + (decide (j ∈ p₂)).toNat = 1 := by
      intro j hj
      have hc := hF _ (cover_mem j hj)
      unfold Satisfies at hc
      have hI : I = [0, 1, 2] := rfl
      rw [hI] at hc
      simp only [List.map_cons, List.map_nil, List.flatten_cons, List.flatten_nil,
        List.append_nil] at hc
      rw [lhsSum_append, lhsSum_append, lhsSum_map, lhsSum_map, lhsSum_map] at hc
      rw [countP_filter_of_filter_eq_singleton h₀, countP_filter_of_filter_eq_singleton h₁,
        countP_filter_of_filter_eq_singleton h₂] at hc
      omega
    have obj : objective ex l = objCoeff ex 0 p₀ + objCoeff ex 1 p₁ + objCoeff ex 2 p₂ := by
      unfold objective
      have hAP : allPairs ex = (P.map fun p => ((0 : Nat), p)) ++
          ((P.map fun p => ((1 : Nat), p)) ++ (P.map fun p => ((2 : Nat), p))) := by decide
      rw [hAP, List.map_append, List.map_append, List.sum_append, List.sum_append]
      rw [List.map_map, List.map_map, List.map_map]
      have e₀ := sum_mul_of_filter_eq_singleton (objCoeff ex 0) h₀
      have e₁ := sum_mul_of_filter_eq_singleton (objCoeff ex 1) h₁
      have e₂ := sum_mul_of_filter_eq_singleton (objCoeff ex 2) h₂
      rw [show ((fun k : Nat × List Nat => objCoeff ex k.1 k.2 * (l k).toNat) ∘
        fun p => ((0 : Nat), p)) = fun q => objCoeff ex 0 q * (l (0, q)).toNat from rfl]
      rw [show ((fun k : Nat × List Nat => objCoeff ex k.1 k.2 * (l k).toNat) ∘
        fun p => ((1 : Nat), p)) = fun q => objCoeff ex 1 q * (l (1, q)).toNat from rfl]
      rw [show ((fun k : Nat × List Nat => objCoeff ex k.1 k.2 * (l k).toNat) ∘
        fun p => ((2 : Nat), p)) = fun q => objCoeff ex 2 q * (l (2, q)).toNat from rfl]
      rw [e₀, e₁, e₂]
      omega
    rw [obj]
    exact triple_lower_bound p₀ m₀.1 (cap 0 (by decide) p₀ m₀.1 m₀.2)
      p₁ m₁.1 (cap 1 (by decide) p₁ m₁.1 m₁.2)
      p₂ m₂.1 (cap 2 (by decide) p₂ m₂.1 m₂.2) cov

set_option maxRecDepth 10000 in
/-- Witness for C1: the reported optimum is attained by `lopt`. -/
theorem optimal_value_42_app : 42 ≤ objective ex lopt :=
  optimal_value_42.2 lopt (by decide)

/-- C2.  For every facility and pattern of the example, the precomputed
cost is 0 on the empty pattern and opening cost plus summed connection
costs otherwise. -/
theorem patternCost_formula : ∀ i ∈ I, ∀ p ∈ P,
    patternCost ex i p =
      some (if p.length = 0 then 0 else f.getD i 0 + (p.map (connOf i)).sum) := by
  decide

/-- Witness for C2 at facility 2 and pattern `[0, 3]`. -/
theorem patternCost_formula_app :
    patternCost ex 2 [0, 3] =
      some (if ([0, 3] : List Nat).length = 0 then 0
        else f.getD 2 0 + (([0, 3] : List Nat).map (connOf 2)).sum) :=
  patternCost_formula 2 (by decide) [0, 3] (by decide)

/-- C3.  The enumerator yields all `2^n` subsets of `J`, grouped by size
from 0 to `n` with the empty set first. -/
theorem patterns_enumeration :
    (∀ Js : List Nat, (patterns Js).length = 2 ^ Js.length) ∧
    (∀ (Js : List Nat) (r : Nat), ∀ p ∈ combinations r Js, p.length = r) ∧
    (∀ Js : List Nat, patterns Js =
      ((List.range (Js.length + 1)).map (fun r => combinations r Js)).flatten) ∧
    (∀ Js : List Nat, (patterns Js).head? = some []) ∧
    List.Sorted (· ≤ ·) ((patterns J).map List.length) :=
  ⟨patterns_length, (fun Js r p hp => length_of_mem_combinations Js r p hp),
    fun _ => rfl, patterns_head, by decide⟩

/-- Witness for C3: the size-2 block membership forces length 2. -/
theorem patterns_enumeration_app : ([0, 1] : List Nat).length = 2 :=
  patterns_enumeration.2.1 J 2 [0, 1] (by decide)

/-- C4.  A variable-fixing constraint `l[i,p] = 0` is in the built model
exactly when the pattern's demand exceeds the facility's capacity. -/
theorem capacity_exclusion_iff : ∀ i ∈ I, ∀ p ∈ P,
    ((⟨[(i, p)], 0⟩ : Constr) ∈ constrs ex ↔ C.getD i 0 < demandSum b p) := by
  decide

/-- Witness for C4: pattern `[3]` (demand 14) is excluded at facility 0
(capacity 10). -/
theorem capacity_exclusion_iff_app : (⟨[((0 : Nat), [3])], 0⟩ : Constr) ∈ constrs ex :=
  (capacity_exclusion_iff 0 (by decide) [3] (by decide)).mpr (by decide)

/-- C5.  In every feasible assignment, the coverage sum of each customer
and the pattern sum of each facility are exactly 1. -/
theorem coverage_sums_one : ∀ l : Nat × List Nat → Bool, Feasible ex l →
    (∀ j ∈ J, coverSum ex l j = 1) ∧ (∀ i ∈ I, facilitySum ex l i = 1) := by
  intro l hF
  constructor
  · intro j hj
    unfold coverSum
    rw [filter_allPairs ex j]
    exact hF _ (cover_mem j hj)
  · intro i hi
    have h := hF _ (onePat_mem i hi)
    unfold Satisfies at h
    unfold facilitySum
    exact h

set_option maxRecDepth 10000 in
/-- Witness for C5 on the optimal assignment, customer 3 and facility 1. -/
theorem coverage_sums_one_app : coverSum ex lopt 3 = 1 ∧ facilitySum ex lopt 1 = 1 :=
  ⟨(coverage_sums_one lopt (by decide)).1 3 (by decide),
    (coverage_sums_one lopt (by decide)).2 1 (by decide)⟩

/-- Counterexample to C6 as stated: a dictionary with the right number of
entries but no value for pair `(0, 0)` passes all three validation asserts,
and the run fails later with a lookup error, not a validation error. -/
theorem validation_misses_key_cex :
    MissingEntry exBad ∧ validate exBad = true ∧
    run exBad = Except.error "KeyError" ∧ ("KeyError" : String) ≠ "AssertionError" :=
  ⟨by decide, by decide, rfl, by decide⟩

/-- C6 (amended).  Tuple-length mismatches and a connection-cost mapping
whose entry count differs from `|I|·|J|` are rejected by the validation
asserts before any model is constructed. -/
theorem validation_rejects_mismatch : ∀ d : FLData,
    (d.J.length ≠ d.b.length ∨ d.I.length ≠ d.f.length ∨ d.f.length ≠ d.C.length ∨
      d.c.length ≠ d.I.length * d.J.length) →
    run d = Except.error "AssertionError" := by
  intro d h
  have hv : validate d = false := by
    unfold validate
    rcases h with h | h | h | h <;> simp [h]
  unfold run
  rw [hv]
  rfl

/-- Witness for amended C6: an empty demand tuple is rejected. -/
theorem validation_rejects_mismatch_app :
    run ⟨I, J, [], f, C, c⟩ = Except.error "AssertionError" :=
  validation_rejects_mismatch ⟨I, J, [], f, C, c⟩ (Or.inl (by decide))

/-- C7.  The pipeline is deterministic: identical input data yields the
identical pattern sequence, objective coefficients and constraint set. -/
theorem build_deterministic : ∀ d₁ d₂ : FLData, d₁ = d₂ →
    patterns d₁.J = patterns d₂.J ∧ buildModel d₁ = buildModel d₂ := by
  intro d₁ d₂ h
  subst h
  exact ⟨rfl, rfl⟩

/-- Witness for C7 at the example instance. -/
theorem build_deterministic_app :
    patterns ex.J = patterns ex.J ∧ buildModel ex = buildModel ex :=
  build_deterministic ex ex rfl

/-- C8.  The empty pattern has demand 0, is enumerated, costs 0, is never
fixed to 0 by a capacity exclusion, and alone satisfies the
one-pattern-per-facility constraint of each facility in isolation. -/
theorem empty_pattern_admissible : ∀ i ∈ I,
    (∀ bs : List Nat, demandSum bs [] = 0) ∧
    ([] : List Nat) ∈ P ∧
    patternCost ex i [] = some 0 ∧
    (⟨[(i, [])], 0⟩ : Constr) ∉ constrs ex ∧
    ∃ l, Satisfies l ⟨P.map (fun p => (i, p)), 1⟩ ∧
      ∀ p ∈ P, C.getD i 0 < demandSum b p → l (i, p) = false := by
  intro i hi
  fin_cases hi
  · exact ⟨fun bs => rfl, by decide, by decide, by decide,
      ⟨fun k => decide (k = ((0 : Nat), ([] : List Nat))), by decide, by decide⟩⟩
  · exact ⟨fun bs => rfl, by decide, by decide, by decide,
      ⟨fun k => decide (k = ((1 : Nat), ([] : List Nat))), by decide, by decide⟩⟩
  · exact ⟨fun bs => rfl, by decide, by decide, by decide,
      ⟨fun k => decide (k = ((2 : Nat), ([] : List Nat))), by decide, by decide⟩⟩

/-- Witness for C8 at facility 1. -/
theorem empty_pattern_admissible_app : patternCost ex 1 [] = some 0 :=
  (empty_pattern_admissible 1 (by decide)).2.2.1

/-- C9.  The asserts check only the size of the cost mapping: a mapping
with exactly `|I|·|J|` entries but no `(0, 0)` key passes validation, and
the missing entry surfaces only as a lookup failure in cost precomputation. -/
theorem missing_key_passes_validation :
    cBad.length = I.length * J.length ∧ validate exBad = true ∧
    MissingEntry exBad ∧ run exBad = Except.error "KeyError" :=
  ⟨by decide, by decide, by decide, rfl⟩

/-- C10.  Every enumerated pattern is a strictly increasing list of
customers of `J`, and each subset of `J` has exactly one representative. -/
theorem patterns_canonical :
    (∀ p ∈ patterns J, List.Sorted (· < ·) p ∧ ∀ j ∈ p, j ∈ J) ∧
    (∀ s ∈ J.toFinset.powerset,
      ((patterns J).countP (fun p => decide (p.toFinset = s))) = 1) := by
  constructor
  · decide
  · decide

/-- Witness for C10 at pattern `[0, 3]` and subset `{0, 3}`. -/
theorem patterns_canonical_app :
    List.Sorted (· < ·) ([0, 3] : List Nat) ∧
    ((patterns J).countP (fun p => decide (p.toFinset = ({0, 3} : Finset Nat)))) = 1 :=
  ⟨(patterns_canonical.1 [0, 3] (by decide)).1,
    patterns_canonical.2 {0, 3} (by decide)⟩

end FacLoc
